import Mathlib

/-!
# Verification of the Bookstore single-page client

A shallow embedding, in Lean 4, of the logic of the book-discovery
single-page client (`script.js` and its two sibling revisions).  Network
effects are modelled as explicit oracles: each embedded function takes the
sequence (or single outcome) of network responses it would observe, and
returns the value the JavaScript function would produce together with the
observable side effects (delays performed, storage writes, re-renders).

JavaScript `undefined` is modelled as `Option.none`; a JavaScript value
that may be either a string or `undefined` becomes `Option String`; a
fetch that may reject, or a JSON body that may fail to parse, becomes an
explicit outcome constructor.

The file is organised as definitions first (sections on the Gemini
wrapper, the catalog model, the renderer, the favorites store, the view
router, the discussion-question formatter, and concrete test data), then
the theorems settling the claims, with their helper lemmas.
-/

namespace Bookstore

/-! ## The Gemini retry/backoff wrapper (`callGemini`)

Source (`script.js` lines 31–58, identical in `src/unnamed/part_001`
lines 19–42):

* POST the prompt; if `!response.ok` and `status === 429 && retryCount > 0`,
  wait `delay` ms, then recurse with `retryCount - 1` and `delay * 2`;
* any other non-ok response throws, and the surrounding `try`/`catch`
  converts every throw into the fixed apology string;
* on an ok response, `response.json()` is parsed (a parse failure also
  throws into the `catch`) and
  `result.candidates?.[0]?.content?.parts?.[0]?.text` is returned — which
  is `undefined` when the payload carries no candidate text.
-/

/-- The fixed apology string returned by `callGemini` on any caught error. -/
def apology : String := "Sorry, the AI is taking a break. Please try again in a moment."

/-- One observed outcome of a `fetch` of the Gemini endpoint.

* `netFail` — the `fetch` promise itself rejects (network error).
* `resp status json` — an HTTP response with the given status code;
  `json = none` means `response.json()` throws (unparsable body);
  `json = some text` means the body parses and
  `result.candidates?.[0]?.content?.parts?.[0]?.text` evaluates to `text`
  (`text = none` is JavaScript `undefined`: no candidate text present). -/
inductive GeminiFetch where
  | netFail : GeminiFetch
  | resp (status : Nat) (json : Option (Option String)) : GeminiFetch
  deriving DecidableEq

/-- `response.ok` per the fetch specification: status in the range [200, 300). -/
def responseOk (status : Nat) : Prop := 200 ≤ status ∧ status < 300

instance (status : Nat) : Decidable (responseOk status) :=
  inferInstanceAs (Decidable (_ ∧ _))

/-- Shallow embedding of `callGemini(prompt, retryCount = 3, delay = 1000)`.

The scripted list `responses` supplies one `GeminiFetch` outcome per
attempt (an exhausted script behaves like a network failure).  The result
is the pair of the value returned to the caller (`none` models the
JavaScript `undefined` that the optional chaining can produce) and the
list of delays performed by `await new Promise(res => setTimeout(res, delay))`,
in chronological order.  The `catch` of the source converts every thrown
error into `apology` before it can reach the caller, so the embedding has
no error outcome; the recursive call sits inside the `try`, but its result
is never a rejection for the same reason. -/
def callGemini (prompt : String) : List GeminiFetch → Nat → Nat → Option String × List Nat
  | [], _, _ => (some apology, [])
  | .netFail :: _, _, _ => (some apology, [])
  | .resp status json :: rest, retryCount, delay =>
    if responseOk status then
      match json with
      | none => (some apology, [])
      | some text => (text, [])
    else if status = 429 ∧ 0 < retryCount then
      let r := callGemini prompt rest (retryCount - 1) (delay * 2)
      (r.1, delay :: r.2)
    else (some apology, [])

/-! ## Catalog data model

`CatalogEntry` records arrive verbatim from the Google Books API.  Every
field the client reads through optional chaining is an `Option`; a present
but empty string is distinct from an absent field, mirroring JavaScript
(where `'' || fallback` yields the fallback — see `jsOr`). -/

/-- The `volumeInfo` sub-object of a Google Books volume, restricted to
the fields the client reads. -/
structure VolumeInfo where
  title : Option String
  authors : Option (List String)
  thumbnail : Option String
  description : Option String
  infoLink : Option String
  publisher : Option String
  publishedDate : Option String
  deriving DecidableEq

/-- One book record (`{ id, volumeInfo }`) as consumed by the client. -/
structure Book where
  id : String
  volumeInfo : VolumeInfo
  deriving DecidableEq

/-- JavaScript `s || fallback` for strings: the empty string is falsy. -/
def jsOr (s fallback : String) : String := if s = "" then fallback else s

/-- `book.volumeInfo.authors?.length || 1` — the author count used both by
the `fetchBooks` filter and by the `renderBooks` sort comparator.  An
absent author list is `undefined` (count 1 via `||`); a present empty list
has length `0`, which is falsy, so it also counts as 1. -/
def authorCount (b : Book) : Nat :=
  match b.volumeInfo.authors with
  | none => 1
  | some l => if l.length = 0 then 1 else l.length

/-- The comparison relation realised by the `renderBooks` sort comparator
`(a, b) => (a.volumeInfo.authors?.length || 1) - (b.volumeInfo.authors?.length || 1)`. -/
def authorLe (a b : Book) : Prop := authorCount a ≤ authorCount b

instance : DecidableRel authorLe := fun a b => Nat.decLe _ _

instance : IsTotal Book authorLe := ⟨fun a b => Nat.le_total (authorCount a) (authorCount b)⟩

instance : IsTrans Book authorLe := ⟨fun _ _ _ => Nat.le_trans⟩

/-! ## The catalog query function (`fetchBooks`)

Source (`script.js` lines 109–122, identical in `src/unnamed/part_001`
lines 67–78): fetch the volumes endpoint; a rejected fetch, a non-ok
response (which throws) or an unparsable body (which throws) all land in
the `catch` and return `null`; a parsed body without `items` returns `[]`;
otherwise the `items` are filtered by
`(book.volumeInfo.authors?.length || 1) <= 3`. -/

/-- One observed outcome of the Google Books search fetch.  `netFail` is a
rejected fetch; in `resp status json`, `json = none` means `response.json()`
throws, `json = some none` a parsed body with no `items` field, and
`json = some (some items)` a parsed body carrying `items`. -/
inductive BooksFetch where
  | netFail : BooksFetch
  | resp (status : Nat) (json : Option (Option (List Book))) : BooksFetch

/-- Shallow embedding of `fetchBooks(query, maxResults = 40)`.  `query`
and `maxResults` only shape the request URL; the oracle `r` supplies the
observed outcome.  `none` is the `null` error sentinel. -/
def fetchBooks (query : String) (r : BooksFetch) (maxResults : Nat := 40) :
    Option (List Book) :=
  match r with
  | .netFail => none
  | .resp status json =>
    if responseOk status then
      match json with
      | none => none
      | some none => some []
      | some (some items) => some (items.filter fun book => authorCount book ≤ 3)
    else none

/-! ## The renderer (`renderBooks`)

Two revisions exist.  `src/unnamed/part_001` lines 85–128 (the
null-sentinel revision, carrying the "FIX" comment) first checks
`books === null` and shows a dedicated failure notice; `script.js` lines
129–164 instead normalises `null` to `[]` (`books ? books.slice(0, 20) : []`),
so a fetch failure is displayed as "no results".  Both slice to the first
20 entries, show the "no results" placeholder when nothing remains, and
otherwise sort ascending by author count and emit one card per entry.

`Array.prototype.sort` is stable (required since ES2019) and the
comparator is a total preorder on the author count, so the sorted array is
the unique stable sort of its input; `List.insertionSort` is a stable sort
by the same relation, and the two decisive properties — pairwise
sortedness and preservation of the relative order of equal keys — are
proved about it below. -/

/-- What `renderBooks` writes into its container. -/
inductive RenderOutput where
  | errorNotice : RenderOutput
  | noResults : RenderOutput
  | cards (books : List Book) : RenderOutput
  deriving DecidableEq

/-- The failure placeholder of the null-sentinel revision
(`src/unnamed/part_001` line 91). -/
def errorNoticeHtml : String :=
  "<div class=\"col-span-full text-center text-red-400 py-16\"><p class=\"text-lg\">Sorry, something went wrong.</p><p>Could not load books. Please check your connection and try again.</p></div>"

/-- The "no results" placeholder (both revisions). -/
def noResultsHtml : String :=
  "<div class=\"col-span-full text-center text-gray-400 py-16\"><p class=\"text-lg\">No books found matching your criteria.</p></div>"

/-- Shallow embedding of `renderBooks(container, books)` from
`src/unnamed/part_001` lines 85–128: `null` shows the failure notice; an
empty slice shows the "no results" placeholder; otherwise the first 20
entries are sorted ascending by author count and rendered as cards. -/
def renderBooks (books : Option (List Book)) : RenderOutput :=
  match books with
  | none => .errorNotice
  | some bs =>
    let booksToDisplay := bs.take 20
    if booksToDisplay.length = 0 then .noResults
    else .cards (booksToDisplay.insertionSort authorLe)

/-- Shallow embedding of `renderBooks(container, books)` from `script.js`
lines 129–164: `booksToDisplay = books ? books.slice(0, 20) : []`, so the
`null` sentinel is folded into the empty list and there is no failure
notice. -/
def renderBooksScript (books : Option (List Book)) : RenderOutput :=
  let booksToDisplay := (books.getD []).take 20
  if booksToDisplay.length = 0 then .noResults
  else .cards (booksToDisplay.insertionSort authorLe)

/-- One rendered book card (`script.js` lines 141–162): cover thumbnail or
placeholder, title or placeholder, comma-joined authors or placeholder
(`authors?.join(', ') || 'Unknown Author'` — the join of an empty or
single-empty-string list is falsy), favourite affordance reflecting
membership of the favorites list, and the optional outbound link. -/
def bookCard (favorites : List Book) (book : Book) : String :=
  let title := jsOr (book.volumeInfo.title.getD "") "No Title Available"
  let authors :=
    jsOr (String.intercalate ", " (book.volumeInfo.authors.getD [])) "Unknown Author"
  let coverImage :=
    jsOr (book.volumeInfo.thumbnail.getD "")
      "https://placehold.co/128x192/1f2937/9ca3af?text=No+Cover"
  let isFavorited := favorites.any fun fav => fav.id = book.id
  "<div class=\"book-card\"><div class=\"fav-btn " ++
    (if isFavorited then "favorited" else "") ++ "\" data-book-id=\"" ++ book.id ++
    "\"></div><img src=\"" ++ coverImage ++ "\" alt=\"Cover of " ++ title ++
    "\" data-book-id=\"" ++ book.id ++ "\"><h3>" ++ title ++ "</h3><p>" ++ authors ++
    "</p><button class=\"summary-btn\" data-book-id=\"" ++ book.id ++
    "\">Summary</button>" ++
    (match book.volumeInfo.infoLink with
     | some link => "<a href=\"" ++ link ++ "\">Buy Now</a>"
     | none => "") ++ "</div>"

/-- The `innerHTML` written for a whole `RenderOutput` (cards are the
concatenation, in order, of one `bookCard` per entry). -/
def renderOutputHtml (favorites : List Book) : RenderOutput → String
  | .errorNotice => errorNoticeHtml
  | .noResults => noResultsHtml
  | .cards books => String.join (books.map (bookCard favorites))

/-! ## The favorites store (`toggleFavorite`, `saveFavorites`)

Source (`script.js` lines 237–260, same logic in `src/unnamed/part_001`
lines 185–204): `toggleFavorite(bookId)` looks up
`favorites.findIndex(fav => fav.id === bookId)`; a hit is removed with
`splice(bookIndex, 1)`; on a miss the full record is fetched and pushed,
but a failed fetch `return`s before `saveFavorites()` — so neither the
storage write nor the re-render of the current view happens.  Every
successful path calls `saveFavorites()`, which rewrites the whole list
under the single key `'bookNookFavorites'`, and then re-renders the
current view. -/

/-- Outcome of the detail fetch (`/volumes/<id>`) performed when a book is
added to the favorites: either the fetch/parse fails (any throw) or it
yields the full record. -/
inductive DetailFetch where
  | fail : DetailFetch
  | success (book : Book) : DetailFetch

/-- The observable result of one `toggleFavorite` call: the favorites list
afterwards, whether `saveFavorites()` ran, and whether the current view
was re-rendered. -/
structure ToggleResult where
  favorites : List Book
  saved : Bool
  rerendered : Bool
  deriving DecidableEq

/-- Shallow embedding of `toggleFavorite(bookId)` acting on the in-memory
`favorites` list, with the detail fetch supplied as an oracle. -/
def toggleFavorite (favorites : List Book) (bookId : String) (detail : DetailFetch) :
    ToggleResult :=
  match favorites.findIdx? (fun fav => fav.id == bookId) with
  | some bookIndex => ⟨favorites.eraseIdx bookIndex, true, true⟩
  | none =>
    match detail with
    | .fail => ⟨favorites, false, false⟩
    | .success book => ⟨favorites ++ [book], true, true⟩

/-- The fixed localStorage key of the favorites list. -/
def favoritesKey : String := "bookNookFavorites"

/-- `saveFavorites()`: overwrite the fixed key with the serialisation of
the entire current list (storage is modelled as a map from keys to the
stored list; JSON serialisation, which `loadFavorites` inverts, is
abstracted away). -/
def saveFavorites (favorites : List Book) (storage : String → Option (List Book)) :
    String → Option (List Book) :=
  fun k => if k = favoritesKey then some favorites else storage k

/-- One `toggleFavorite` call together with its effect on local storage:
the source calls `saveFavorites()` exactly on the paths where
`ToggleResult.saved` is true. -/
def toggleFavoriteStore (favorites : List Book) (storage : String → Option (List Book))
    (bookId : String) (detail : DetailFetch) :
    ToggleResult × (String → Option (List Book)) :=
  let r := toggleFavorite favorites bookId detail
  (r, if r.saved then saveFavorites r.favorites storage else storage)

/-! ## The view router (`showView`)

Source (`script.js` lines 222–225, identical in both other revisions):
`allViews.forEach(v => v.classList.add('hidden'))`, then
`document.getElementById(viewId).classList.remove('hidden')`. -/

/-- Shallow embedding of `showView(viewId)`: `allViews` is the list of ids
of the `.view` panels, `visible` the visibility of every element before
the call, and the result the visibility after it — every panel is hidden
first, then the element named `viewId` is shown. -/
def showView (allViews : List String) (visible : String → Bool) (viewId : String) :
    String → Bool :=
  let afterHideAll := fun p => if p ∈ allViews then false else visible p
  fun p => if p = viewId then true else afterHideAll p

/-! ## The discussion-question formatter

Source (`script.js` lines 86–99 / `src/unnamed/part_001` lines 54–64):

`questions.split(/\d+\.\s/).filter(q => q.trim()).map(q => '<li>' + q.trim() + '</li>').join('')`
wrapped in `'<ul>' + … + '</ul>'`.

The regex `/\d+\.\s/` matches one or more digits, a literal dot and one
whitespace character.  Because a shortened digit run is still followed by
a digit (never the required dot), backtracking inside `\d+` can never
rescue a failed match, so a match at a position is exactly: the maximal
digit run there, then `'.'`, then a whitespace character.  `String.split`
scans for the leftmost match, cuts there, and resumes after it; that scan
is `splitNumbering` below. -/

/-- The character class of JavaScript `\s`, which is also the set of
characters `String.prototype.trim` removes: ASCII whitespace (TAB, LF,
VT, FF, CR, SP), no-break space, Ogham space mark, the `U+2000`–`U+200A`
typographic spaces, line separator, paragraph separator, narrow no-break
space, medium mathematical space, ideographic space, and the
`U+FEFF` zero-width no-break space. -/
def jsWhitespace (c : Char) : Bool :=
  c = ' ' || c = '\t' || c = '\n' || c = '\r' || c = '\x0b' || c = '\x0c' ||
    c = '\xa0' || c = '\u1680' || ('\u2000' ≤ c && c ≤ '\u200a') ||
    c = '\u2028' || c = '\u2029' || c = '\u202f' || c = '\u205f' ||
    c = '\u3000' || c = '\ufeff'

/-- JavaScript `String.prototype.trim`: remove leading and trailing
whitespace. -/
def trimChars (l : List Char) : List Char :=
  ((l.dropWhile jsWhitespace).reverse.dropWhile jsWhitespace).reverse

/-- After the first digit of a candidate match: consume the remaining
digits of the run, then require `'.'` and a whitespace character.  Returns
the characters after the match. -/
def afterDigits : List Char → Option (List Char)
  | [] => none
  | c :: cs =>
    if c.isDigit then afterDigits cs
    else if c = '.' then
      match cs with
      | [] => none
      | w :: rest => if jsWhitespace w then some rest else none
    else none

/-- Try to match `/\d+\.\s/` at the head of the list; on success return
the characters after the match. -/
def matchNumbering : List Char → Option (List Char)
  | [] => none
  | c :: cs => if c.isDigit then afterDigits cs else none

/-- Does `/\d+\.\s/` match anywhere in the list? -/
def containsNumbering : List Char → Bool
  | [] => false
  | c :: cs =>
    match matchNumbering (c :: cs) with
    | some _ => true
    | none => containsNumbering cs

/-- `String.prototype.split(/\d+\.\s/)` on a character list: `acc` holds
the reversed current segment; at each position the leftmost-match scan
either cuts a segment or shifts one character. -/
def splitNumbering (acc : List Char) : List Char → List (List Char)
  | [] => [acc.reverse]
  | c :: cs =>
    match h : matchNumbering (c :: cs) with
    | some rest => acc.reverse :: splitNumbering [] rest
    | none => splitNumbering (c :: acc) cs
termination_by l => l.length
decreasing_by
  · -- a match consumes the leading digit, at least the dot and one
    -- whitespace character, so the remainder is strictly shorter
    have keyA : ∀ (l r : List Char), afterDigits l = some r → r.length < l.length := by
      intro l
      induction l with
      | nil => intro r hr; simp [afterDigits] at hr
      | cons d ds ih =>
        intro r hr
        by_cases hd : d.isDigit
        · have := ih r (by simpa [afterDigits, hd] using hr)
          simp only [List.length_cons]
          omega
        · by_cases hdot : d = '.'
          · cases ds with
            | nil => simp [afterDigits, hd, hdot] at hr
            | cons w rest =>
              by_cases hw : jsWhitespace w
              · have hrr : rest = r := by simpa [afterDigits, hd, hdot, hw] using hr
                subst hrr
                simp only [List.length_cons]
                omega
              · simp [afterDigits, hd, hdot, hw] at hr
          · simp [afterDigits, hd, hdot] at hr
    have keyM : ∀ (l r : List Char), matchNumbering l = some r → r.length < l.length := by
      intro l r hm
      cases l with
      | nil => simp [matchNumbering] at hm
      | cons c cs =>
        by_cases hc : c.isDigit
        · have := keyA cs r (by simpa [matchNumbering, hc] using hm)
          simp only [List.length_cons]
          omega
        · simp [matchNumbering, hc] at hm
    exact keyM _ _ h
  · simp

/-- The pure formatting step of `generateDiscussionQuestions`
(`script.js` line 96): split on the numbering pattern, keep the segments
whose trim is non-empty (truthy), and emit one `<li>` with the trimmed
segment per survivor, wrapped in `<ul>`/`</ul>`. -/
def formatQuestions (questions : String) : String :=
  let segments := splitNumbering [] questions.toList
  let kept := segments.filter fun q => !(trimChars q).isEmpty
  "<ul>" ++ String.join (kept.map fun q => "<li>" ++ String.mk (trimChars q) ++ "</li>") ++
    "</ul>"

/-! ## Concrete records used by witnesses -/

/-- A `volumeInfo` with every optional field absent. -/
def emptyVolumeInfo : VolumeInfo := ⟨none, none, none, none, none, none, none⟩

/-- A single-author record. -/
def bkSolo : Book := ⟨"solo", { emptyVolumeInfo with authors := some ["A"] }⟩

/-- A two-author record. -/
def bkDuo : Book := ⟨"duo", { emptyVolumeInfo with authors := some ["A", "B"] }⟩

/-- A four-author record (filtered out by `fetchBooks`). -/
def bkMany : Book := ⟨"many", { emptyVolumeInfo with authors := some ["A", "B", "C", "D"] }⟩

/-! ## Claims about the Gemini wrapper -/

/-- C1: with the default retry budget 3, three 429 responses followed by a
success return the success text after exactly three delays `d, 2d, 4d`
(non-decreasing doubling), and four 429 responses exhaust the budget and
return the apology string after the same three delays. -/
theorem callGemini_backoff_retry (prompt : String) (d : Nat)
    (b₁ b₂ b₃ b₄ : Option (Option String)) (s : Option String) :
    callGemini prompt
        [.resp 429 b₁, .resp 429 b₂, .resp 429 b₃, .resp 200 (some s)] 3 d
      = (s, [d, 2 * d, 4 * d])
    ∧ callGemini prompt
        [.resp 429 b₁, .resp 429 b₂, .resp 429 b₃, .resp 429 b₄] 3 d
      = (some apology, [d, 2 * d, 4 * d])
    ∧ List.Chain' (· ≤ ·) [d, 2 * d, 4 * d] := by
  refine ⟨?_, ?_, ?_⟩
  · simp [callGemini, responseOk]
    omega
  · simp [callGemini, responseOk]
    omega
  · simp
    omega

/-- C2 (amended): for every prompt, retry budget, initial delay and
response sequence, `callGemini` returns either the apology string or the
candidate text extracted from some successful response of the sequence —
which is `undefined` (`none`) when that successful payload contains no
candidate text.  There is no error outcome: every throw inside the source
is converted by its `catch` into the apology string, so nothing is ever
thrown or rejected to the caller. -/
theorem callGemini_never_throws (prompt : String) (responses : List GeminiFetch)
    (retryCount delay : Nat) :
    (callGemini prompt responses retryCount delay).1 = some apology
    ∨ ∃ status text, GeminiFetch.resp status (some text) ∈ responses
        ∧ responseOk status
        ∧ (callGemini prompt responses retryCount delay).1 = text := by
  induction responses generalizing retryCount delay with
  | nil => exact Or.inl rfl
  | cons head rest ih =>
    cases head with
    | netFail => exact Or.inl rfl
    | resp status json =>
      by_cases hok : responseOk status
      · cases json with
        | none => left; simp [callGemini, hok]
        | some text =>
          right
          exact ⟨status, text, List.mem_cons_self _ _, hok, by simp [callGemini, hok]⟩
      · by_cases hretry : status = 429 ∧ 0 < retryCount
        · have hstep : (callGemini prompt (.resp status json :: rest) retryCount delay).1
              = (callGemini prompt rest (retryCount - 1) (delay * 2)).1 := by
            simp [callGemini, hok, hretry, responseOk]
          rcases ih (retryCount - 1) (delay * 2) with h | ⟨st, tx, hmem, hst, heq⟩
          · left; rw [hstep]; exact h
          · right; exact ⟨st, tx, List.mem_cons_of_mem _ hmem, hst, hstep.trans heq⟩
        · left; simp [callGemini, hok, hretry]

/-- C2 counterexample to the claim as stated: a single successful (HTTP
200) response whose parsed payload lacks the candidate-text path makes
`callGemini` return JavaScript `undefined` (`none`) — not a string, and in
particular not the apology string. -/
theorem callGemini_undefined_counterexample :
    callGemini "p" [.resp 200 (some none)] 3 1000 = (none, [])
    ∧ ((callGemini "p" [.resp 200 (some none)] 3 1000).1).isSome = false := by
  constructor
  · simp [callGemini, responseOk]
  · simp [callGemini, responseOk]

/-! ## Claims about the renderer and the catalog query -/

/-- C3: in the null-sentinel revision, a fetch failure (`null`) shows the
failure placeholder, an empty result list shows the "no results"
placeholder, and the two displays are distinguishable (both as outputs and
as the HTML actually written). -/
theorem renderBooks_error_vs_empty :
    renderBooks none = RenderOutput.errorNotice
    ∧ renderBooks (some []) = RenderOutput.noResults
    ∧ RenderOutput.errorNotice ≠ RenderOutput.noResults
    ∧ renderOutputHtml [] RenderOutput.errorNotice
        ≠ renderOutputHtml [] RenderOutput.noResults := by
  refine ⟨rfl, rfl, by decide, ?_⟩
  decide

/-- Stability engine: inserting `a` by `authorLe` prepends `a` to the
elements of author count `k` exactly when `authorCount a = k`, and leaves
their relative order untouched — because the comparator is a total
preorder on the count, `orderedInsert` never moves `a` past an element of
equal count. -/
theorem filter_orderedInsert_authorCount (k : Nat) (a : Book) (l : List Book) :
    (l.orderedInsert authorLe a).filter (fun b => authorCount b == k)
      = if authorCount a = k then a :: l.filter (fun b => authorCount b == k)
        else l.filter (fun b => authorCount b == k) := by
  induction l with
  | nil =>
    by_cases h : authorCount a = k <;> simp [List.orderedInsert, h]
  | cons b t ih =>
    by_cases hle : authorLe a b
    · by_cases ha : authorCount a = k <;> simp [List.orderedInsert, hle, ha]
    · have hlt : authorCount b < authorCount a := by
        have := hle
        simp only [authorLe, not_le] at this
        exact this
      have hstep : (b :: t).orderedInsert authorLe a = b :: t.orderedInsert authorLe a := by
        simp [List.orderedInsert, hle]
      by_cases ha : authorCount a = k
      · have hb : ¬ authorCount b = k := by omega
        simp [hle, List.filter_cons, hb, ih, ha]
      · by_cases hb : authorCount b = k <;> simp [hle, List.filter_cons, hb, ih, ha]

/-- The insertion sort by `authorLe` is stable: for each author count `k`,
the subsequence of entries of count `k` is unchanged. -/
theorem filter_insertionSort_authorCount (k : Nat) (l : List Book) :
    (l.insertionSort authorLe).filter (fun b => authorCount b == k)
      = l.filter (fun b => authorCount b == k) := by
  induction l with
  | nil => rfl
  | cons b t ih =>
    have hstep : (b :: t).insertionSort authorLe
        = (t.insertionSort authorLe).orderedInsert authorLe b := rfl
    rw [hstep, filter_orderedInsert_authorCount]
    by_cases h : authorCount b = k <;> simp [List.filter_cons, h, ih]

/-- C5: a non-empty list given to `renderBooks` renders as cards holding
the stable sort (by author count) of its first 20 entries; that order is
pairwise non-decreasing by author count, and for every author count the
entries carrying it appear in their original relative order. -/
theorem renderBooks_sorted_stable (bs : List Book) (hne : bs ≠ []) :
    renderBooks (some bs) = RenderOutput.cards ((bs.take 20).insertionSort authorLe)
    ∧ ((bs.take 20).insertionSort authorLe).Pairwise authorLe
    ∧ ∀ k : Nat, ((bs.take 20).insertionSort authorLe).filter (fun b => authorCount b == k)
        = (bs.take 20).filter (fun b => authorCount b == k) := by
  refine ⟨?_, List.sorted_insertionSort authorLe _,
    fun k => filter_insertionSort_authorCount k _⟩
  simp [renderBooks, hne]

/-- Witness for C5 at a concrete two-element list (a two-author entry
followed by a single-author entry). -/
theorem renderBooks_sorted_stable_witness :
    renderBooks (some [bkDuo, bkSolo])
        = RenderOutput.cards (([bkDuo, bkSolo].take 20).insertionSort authorLe)
    ∧ (([bkDuo, bkSolo].take 20).insertionSort authorLe).filter
          (fun b => authorCount b == 1)
        = ([bkDuo, bkSolo].take 20).filter (fun b => authorCount b == 1) :=
  ⟨(renderBooks_sorted_stable [bkDuo, bkSolo] (by decide)).1,
   (renderBooks_sorted_stable [bkDuo, bkSolo] (by decide)).2.2 1⟩

/-- C4: `fetchBooks` returns, on a successful response carrying items,
exactly the sublist of entries whose author count (zero or absent authors
counting as 1) is at most 3; consequently every entry of every card list
rendered from a `fetchBooks` result has at most 3 listed authors. -/
theorem fetchBooks_author_filter (query : String) (mr : Nat) :
    (∀ (status : Nat) (items : List Book), responseOk status →
        fetchBooks query (.resp status (some (some items))) mr
          = some (items.filter fun b => authorCount b ≤ 3))
    ∧ ∀ (r : BooksFetch) (bs l : List Book),
        fetchBooks query r mr = some bs →
        renderBooks (some bs) = RenderOutput.cards l →
        ∀ b ∈ l, (b.volumeInfo.authors.getD []).length ≤ 3 := by
  constructor
  · intro status items hok
    simp [fetchBooks, hok]
  · intro r bs l hf hr b hb
    have hbs : b ∈ bs := by
      have hl : l = (bs.take 20).insertionSort authorLe := by
        simp only [renderBooks] at hr
        split at hr
        · exact absurd hr (by simp)
        · simpa using hr.symm
      subst hl
      exact List.mem_of_mem_take
        ((List.perm_insertionSort authorLe (bs.take 20)).mem_iff.mp hb)
    have hcount : authorCount b ≤ 3 := by
      cases r with
      | netFail => simp [fetchBooks] at hf
      | resp status json =>
        simp only [fetchBooks] at hf
        split at hf
        · cases json with
          | none => simp at hf
          | some items =>
            cases items with
            | none =>
              have : bs = [] := by simpa using hf.symm
              subst this
              simp at hbs
            | some items =>
              have : bs = items.filter fun bk => decide (authorCount bk ≤ 3) := by
                simpa using hf.symm
              subst this
              simpa using (List.mem_filter.mp hbs).2
        · simp at hf
    cases hau : b.volumeInfo.authors with
    | none => simp
    | some al =>
      have : authorCount b = if al.length = 0 then 1 else al.length := by
        simp [authorCount, hau]
      simp only [Option.getD_some]
      by_cases h0 : al.length = 0
      · omega
      · rw [this, if_neg h0] at hcount
        exact hcount

/-- Witness for C4: a four-author entry is dropped by the filter and only
the single-author entry survives into the rendered cards. -/
theorem fetchBooks_author_filter_witness :
    fetchBooks "q" (.resp 200 (some (some [bkMany, bkSolo]))) 40 = some [bkSolo]
    ∧ renderBooks (some [bkSolo]) = RenderOutput.cards [bkSolo]
    ∧ (bkSolo.volumeInfo.authors.getD []).length ≤ 3 :=
  ⟨by decide, by decide,
   (fetchBooks_author_filter "q" 40).2 (.resp 200 (some (some [bkMany, bkSolo])))
     [bkSolo] [bkSolo] (by decide) (by decide) bkSolo (by decide)⟩

/-! ## Claims about the favorites store -/

/-- If no favorite carries the toggled id, the toggle is a pure append on
a successful detail fetch and a complete no-op on a failed one. -/
theorem toggleFavorite_absent (favorites : List Book) (bookId : String)
    (habs : ∀ f ∈ favorites, f.id ≠ bookId) :
    (∀ book, toggleFavorite favorites bookId (.success book)
        = ⟨favorites ++ [book], true, true⟩)
    ∧ toggleFavorite favorites bookId .fail = ⟨favorites, false, false⟩ := by
  have hnone : favorites.findIdx? (fun fav => fav.id == bookId) = none := by
    rw [List.findIdx?_eq_none_iff]
    intro f hf
    simpa using habs f hf
  exact ⟨fun book => by simp [toggleFavorite, hnone], by simp [toggleFavorite, hnone]⟩

/-- A toggle whose id differs from the head acts on the tail and
re-attaches the head (the `findIndex`/`splice` pair skips the head). -/
theorem toggleFavorite_cons_ne (hd : Book) (t : List Book) (bookId : String)
    (hh : hd.id ≠ bookId) (detail : DetailFetch) :
    toggleFavorite (hd :: t) bookId detail
      = ⟨hd :: (toggleFavorite t bookId detail).favorites,
         (toggleFavorite t bookId detail).saved,
         (toggleFavorite t bookId detail).rerendered⟩ := by
  have hhb : (hd.id == bookId) = false := by simpa using hh
  cases hidx : List.findIdx? (fun fav => fav.id == bookId) t with
  | none =>
    cases detail <;>
      simp [toggleFavorite, List.findIdx?_cons, hhb, List.findIdx?_succ, hidx]
  | some i =>
    simp [toggleFavorite, List.findIdx?_cons, hhb, List.findIdx?_succ, hidx,
      List.eraseIdx_cons_succ]

/-- A toggle whose id matches the head removes exactly the head. -/
theorem toggleFavorite_cons_eq (hd : Book) (t : List Book) (bookId : String)
    (hh : hd.id = bookId) (detail : DetailFetch) :
    toggleFavorite (hd :: t) bookId detail = ⟨t, true, true⟩ := by
  have hhb : (hd.id == bookId) = true := by simpa using hh
  simp [toggleFavorite, List.findIdx?_cons, hhb, List.eraseIdx_cons_zero]

/-- C6 (amended): on a duplicate-free favorites list, toggling the same id
twice — the detail fetch succeeding, with the record of that id, whenever
it is consulted — restores the original membership: every id is in the
final list exactly when it was in the original one. -/
theorem toggleFavorite_twice (favorites : List Book) (bookId : String) (b₁ b₂ : Book)
    (hnodup : favorites.Pairwise fun x y => x.id ≠ y.id)
    (hb₁ : b₁.id = bookId) (hb₂ : b₂.id = bookId) :
    ∀ id₀, (∃ f ∈ (toggleFavorite
              (toggleFavorite favorites bookId (.success b₁)).favorites
              bookId (.success b₂)).favorites, f.id = id₀)
      ↔ (∃ f ∈ favorites, f.id = id₀) := by
  induction favorites with
  | nil =>
    intro id₀
    have h1 : toggleFavorite [] bookId (.success b₁) = ⟨[b₁], true, true⟩ :=
      (toggleFavorite_absent [] bookId (by simp)).1 b₁
    have h2 : toggleFavorite [b₁] bookId (.success b₂) = ⟨[], true, true⟩ :=
      toggleFavorite_cons_eq b₁ [] bookId hb₁ _
    rw [h1]
    simp only [h2]
  | cons hd t ih =>
    intro id₀
    by_cases hh : hd.id = bookId
    · have habs : ∀ f ∈ t, f.id ≠ bookId := by
        intro f hf hfid
        exact (List.pairwise_cons.mp hnodup).1 f hf (hh.trans hfid.symm)
      have h1 : toggleFavorite (hd :: t) bookId (.success b₁) = ⟨t, true, true⟩ :=
        toggleFavorite_cons_eq hd t bookId hh _
      have h2 : toggleFavorite t bookId (.success b₂) = ⟨t ++ [b₂], true, true⟩ :=
        (toggleFavorite_absent t bookId habs).1 b₂
      rw [h1]
      simp only [h2]
      constructor
      · rintro ⟨f, hf, hfid⟩
        rcases List.mem_append.mp hf with hft | hfb
        · exact ⟨f, List.mem_cons_of_mem _ hft, hfid⟩
        · have : f = b₂ := by simpa using hfb
          subst this
          exact ⟨hd, List.mem_cons_self _ _, by rw [hh, ← hb₂, hfid]⟩
      · rintro ⟨f, hf, hfid⟩
        rcases List.mem_cons.mp hf with rfl | hft
        · exact ⟨b₂, List.mem_append.mpr (Or.inr (by simp)), by rw [hb₂, ← hh, hfid]⟩
        · exact ⟨f, List.mem_append.mpr (Or.inl hft), hfid⟩
    · have hnd' : t.Pairwise fun x y => x.id ≠ y.id := (List.pairwise_cons.mp hnodup).2
      rw [toggleFavorite_cons_ne hd t bookId hh (.success b₁)]
      rw [toggleFavorite_cons_ne hd _ bookId hh (.success b₂)]
      constructor
      · rintro ⟨f, hf, hfid⟩
        rcases List.mem_cons.mp hf with rfl | hft
        · exact ⟨f, List.mem_cons_self _ _, hfid⟩
        · rcases (ih hnd' id₀).mp ⟨f, hft, hfid⟩ with ⟨g, hg, hgid⟩
          exact ⟨g, List.mem_cons_of_mem _ hg, hgid⟩
      · rintro ⟨f, hf, hfid⟩
        rcases List.mem_cons.mp hf with rfl | hft
        · exact ⟨f, List.mem_cons_self _ _, hfid⟩
        · rcases (ih hnd' id₀).mpr ⟨f, hft, hfid⟩ with ⟨g, hg, hgid⟩
          exact ⟨g, List.mem_cons_of_mem _ hg, hgid⟩

/-- Witness for C6 (amended) on the singleton list holding the two-author
record: toggling its id twice restores membership of that id. -/
theorem toggleFavorite_twice_witness :
    (∃ f ∈ (toggleFavorite
          (toggleFavorite [bkDuo] "duo" (.success bkDuo)).favorites
          "duo" (.success bkDuo)).favorites, f.id = "duo")
      ↔ (∃ f ∈ [bkDuo], f.id = "duo") :=
  toggleFavorite_twice [bkDuo] "duo" bkDuo bkDuo (by simp) rfl rfl "duo"

/-- C6 counterexample to the claim as stated, which quantifies over every
favorites list: on the duplicate list `[bkSolo, bkSolo]` the two toggles
remove both copies, so the id `"solo"`, present initially, is absent at
the end — membership is not restored. -/
theorem toggleFavorite_twice_counterexample :
    bkSolo.id = "solo"
    ∧ bkSolo ∈ [bkSolo, bkSolo]
    ∧ (toggleFavorite
          (toggleFavorite [bkSolo, bkSolo] "solo" (.success bkSolo)).favorites
          "solo" (.success bkSolo)).favorites = [] := by
  refine ⟨rfl, by decide, by decide⟩

/-- C7: on a duplicate-free list, a toggle (whose detail fetch, when
consulted, returns the record of the requested id) keeps ids
duplicate-free, and every mutating call saves the entire new list under
the fixed storage key while touching no other key. -/
theorem toggleFavorite_invariant (favorites : List Book)
    (storage : String → Option (List Book)) (bookId : String) (detail : DetailFetch)
    (hnodup : favorites.Pairwise fun x y => x.id ≠ y.id)
    (hdetail : ∀ book, detail = .success book → book.id = bookId) :
    (toggleFavoriteStore favorites storage bookId detail).1.favorites.Pairwise
        (fun x y => x.id ≠ y.id)
    ∧ ((toggleFavoriteStore favorites storage bookId detail).1.favorites ≠ favorites →
        (toggleFavoriteStore favorites storage bookId detail).1.saved = true
        ∧ (toggleFavoriteStore favorites storage bookId detail).2 favoritesKey
            = some (toggleFavoriteStore favorites storage bookId detail).1.favorites
        ∧ ∀ k, k ≠ favoritesKey →
            (toggleFavoriteStore favorites storage bookId detail).2 k = storage k) := by
  cases hidx : favorites.findIdx? (fun fav => fav.id == bookId) with
  | some i =>
    have hres : toggleFavorite favorites bookId detail
        = ⟨favorites.eraseIdx i, true, true⟩ := by
      simp [toggleFavorite, hidx]
    constructor
    · simp only [toggleFavoriteStore, hres]
      exact hnodup.sublist (List.eraseIdx_sublist favorites i)
    · intro _
      refine ⟨by simp [toggleFavoriteStore, hres], ?_, ?_⟩
      · simp [toggleFavoriteStore, hres, saveFavorites]
      · intro k hk
        simp [toggleFavoriteStore, hres, saveFavorites, hk]
  | none =>
    have habs : ∀ f ∈ favorites, f.id ≠ bookId := by
      intro f hf
      have := List.findIdx?_eq_none_iff.mp hidx f hf
      simpa using this
    cases detail with
    | fail =>
      have hres := (toggleFavorite_absent favorites bookId habs).2
      constructor
      · simpa [toggleFavoriteStore, hres] using hnodup
      · intro hne
        exact absurd (by simp [toggleFavoriteStore, hres]) hne
    | success book =>
      have hid : book.id = bookId := hdetail book rfl
      have hres := (toggleFavorite_absent favorites bookId habs).1 book
      constructor
      · simp only [toggleFavoriteStore, hres]
        rw [List.pairwise_append]
        refine ⟨hnodup, by simp, ?_⟩
        intro x hx y hy
        have : y = book := by simpa using hy
        subst this
        rw [hid]
        exact habs x hx
      · intro _
        refine ⟨by simp [toggleFavoriteStore, hres], ?_, ?_⟩
        · simp [toggleFavoriteStore, hres, saveFavorites]
        · intro k hk
          simp [toggleFavoriteStore, hres, saveFavorites, hk]

/-- Witness for C7: adding the two-author record to the singleton
single-author list keeps ids duplicate-free. -/
theorem toggleFavorite_invariant_witness :
    (toggleFavoriteStore [bkSolo] (fun _ => none) "duo"
        (.success bkDuo)).1.favorites.Pairwise (fun x y => x.id ≠ y.id) :=
  (toggleFavorite_invariant [bkSolo] (fun _ => none) "duo" (.success bkDuo)
    (by simp) (fun book h => by cases h; rfl)).1

/-- C10: when the toggled id is absent and its detail fetch fails, the
toggle leaves the in-memory list, the entire storage map and the display
untouched (no save, no re-render). -/
theorem toggleFavorite_atomic_on_error (favorites : List Book)
    (storage : String → Option (List Book)) (bookId : String)
    (habs : ∀ f ∈ favorites, f.id ≠ bookId) :
    toggleFavoriteStore favorites storage bookId .fail
      = (⟨favorites, false, false⟩, storage) := by
  have hres := (toggleFavorite_absent favorites bookId habs).2
  simp [toggleFavoriteStore, hres]

/-- Witness for C10 at a concrete list and id. -/
theorem toggleFavorite_atomic_on_error_witness :
    toggleFavoriteStore [bkSolo] (fun _ => none) "zzz" .fail
      = (⟨[bkSolo], false, false⟩, fun _ => none) :=
  toggleFavorite_atomic_on_error [bkSolo] (fun _ => none) "zzz" (by decide)

/-! ## Claim about the view router -/

/-- C8: after `showView(viewId)` on a panel id of the fixed set, the named
panel is visible and every other panel is hidden, whatever was visible
before. -/
theorem showView_exclusive (allViews : List String) (visible : String → Bool)
    (viewId : String) (hmem : viewId ∈ allViews) :
    showView allViews visible viewId viewId = true
    ∧ ∀ p ∈ allViews, p ≠ viewId → showView allViews visible viewId p = false := by
  constructor
  · simp [showView]
  · intro p hp hne
    simp [showView, hne, hp]

/-- Witness for C8 on the three panels of the page, all initially
visible. -/
theorem showView_exclusive_witness :
    showView ["home-view", "favorites-view", "authors-pick-view"] (fun _ => true)
        "favorites-view" "favorites-view" = true
    ∧ showView ["home-view", "favorites-view", "authors-pick-view"] (fun _ => true)
        "favorites-view" "home-view" = false :=
  ⟨(showView_exclusive _ (fun _ => true) "favorites-view" (by decide)).1,
   (showView_exclusive _ (fun _ => true) "favorites-view" (by decide)).2
     "home-view" (by decide) (by decide)⟩

/-! ## Claim about the discussion-question formatter -/

/-- If the numbering pattern matches nowhere, the split scan returns the
whole input as its single segment. -/
theorem splitNumbering_no_match : ∀ (l acc : List Char), containsNumbering l = false →
    splitNumbering acc l = [acc.reverse ++ l] := by
  intro l
  induction l with
  | nil => intro acc _; simp [splitNumbering]
  | cons c cs ih =>
    intro acc hno
    have hm : matchNumbering (c :: cs) = none := by
      cases hmm : matchNumbering (c :: cs) with
      | none => rfl
      | some r => simp [containsNumbering, hmm] at hno
    have hcs : containsNumbering cs = false := by
      simpa [containsNumbering, hm] using hno
    rw [splitNumbering]
    split
    · rename_i rest heq
      rw [hm] at heq
      exact absurd heq (by simp)
    · rw [ih (c :: acc) hcs]
      simp

/-- C9 (amended): a text containing no occurrence of the `"N. "` numbering
pattern, provided it has at least one non-whitespace character, renders as
a single bulleted item holding the trimmed text. -/
theorem formatQuestions_no_numbering (s : String)
    (hno : containsNumbering s.toList = false)
    (hnz : trimChars s.toList ≠ []) :
    formatQuestions s
      = "<ul>" ++ ("<li>" ++ String.mk (trimChars s.toList) ++ "</li>") ++ "</ul>" := by
  have hsplit : splitNumbering [] s.data = [s.data] := by
    simpa [String.toList] using splitNumbering_no_match s.toList [] hno
  have hne : (trimChars s.data).isEmpty = false := by
    rw [List.isEmpty_eq_false]
    simpa [String.toList] using hnz
  simp [formatQuestions, String.toList, hsplit, hne, String.join]

/-- Witness for C9 (amended) on a concrete pattern-free question text. -/
theorem formatQuestions_no_numbering_witness :
    formatQuestions "Who is the hero?"
      = "<ul>" ++ ("<li>" ++ String.mk (trimChars "Who is the hero?".toList) ++ "</li>")
          ++ "</ul>" :=
  formatQuestions_no_numbering "Who is the hero?" (by decide) (by decide)

/-- C9 counterexample to the claim as stated: the text `" "` is non-empty
and contains no occurrence of the numbering pattern, yet it renders as an
empty list — zero items, not a single item — because `filter(q => q.trim())`
discards the whitespace-only segment. -/
theorem formatQuestions_whitespace_counterexample :
    formatQuestions " " = "<ul></ul>"
    ∧ " " ≠ ""
    ∧ containsNumbering " ".toList = false
    ∧ formatQuestions " " ≠ "<ul><li> </li></ul>"
    ∧ formatQuestions " "
        ≠ "<ul>" ++ ("<li>" ++ String.mk (trimChars " ".toList) ++ "</li>") ++ "</ul>" := by
  have h : formatQuestions " " = "<ul></ul>" := by
    simp [formatQuestions, splitNumbering, matchNumbering, trimChars, jsWhitespace,
      String.join]
  refine ⟨h, by decide, by decide, ?_, ?_⟩
  · rw [h]; decide
  · rw [h]; decide

end Bookstore
